import Mathlib

/-!
Formal model of the parachute flight dynamics simulation.

The trajectory engine (`flight_stages.py`, classes `FlightStages` and
`ParachuteFlightSimulation`) is embedded over `ℚ`: every closed-form
kinematic expression of the source is transcribed literally, and the
`while z > 0 and t <= t_max` sampling loop becomes a fuel-indexed
recursion whose fuel is large enough that the loop always exits through
its own condition (proved below).  The terminal velocity
`sqrt(2 m g / (rho * drag_area))` is irrational in general, so the
trajectory definitions take the terminal velocity `vt` as an argument;
the predicate `isTerminalVelocityQ` pins it down as the nonnegative
root, and the real-valued `terminal_velocity` mirrors the source
formula directly over `ℝ`.
-/

namespace ParachuteSim

/-- One sample of the generated trajectory: time, altitude, vertical
velocity, horizontal position and vertical acceleration, exactly the five
arrays returned by `generate_trajectory`. -/
structure Sample where
  t : ℚ
  z : ℚ
  v : ℚ
  x : ℚ
  a : ℚ
deriving DecidableEq

/-- Configuration of the trajectory engine: total descending mass,
gravity, air density, drag area (`Cd * A`), initial altitude `z0`,
time horizon `t_max`, deployment time `t_deploy`, inflation duration
`t_infl` and constant horizontal speed. -/
structure Config where
  m : ℚ
  g : ℚ
  rho : ℚ
  dragArea : ℚ
  z0 : ℚ
  t_max : ℚ
  t_deploy : ℚ
  t_infl : ℚ
  hspeed : ℚ
deriving DecidableEq

/-- Velocity at the end of free fall, `v0 = -g * t_deploy`
(`flight_stages.py` line 63). -/
def v0 (c : Config) : ℚ := -c.g * c.t_deploy

/-- Free-fall altitude `z = z0 - 0.5 * g * t**2` (line 75). -/
def freeFallZ (c : Config) (t : ℚ) : ℚ := c.z0 - 1/2 * c.g * t ^ 2

/-- Free-fall velocity `v = -g * t` (line 76). -/
def freeFallV (c : Config) (t : ℚ) : ℚ := -c.g * t

/-- Inflation acceleration of `FlightStages` (line 65):
`a_infl = min((v0 + terminal_velocity) / t_inflation, 4 * g)`. -/
def aInflFS (c : Config) (vt : ℚ) : ℚ := min ((v0 c + vt) / c.t_infl) (4 * c.g)

/-- Inflation acceleration of `ParachuteFlightSimulation` (line 264):
`a_infl = (-vt - v0) / t_inflation`, with no cap. -/
def aInflPFS (c : Config) (vt : ℚ) : ℚ := (-vt - v0 c) / c.t_infl

/-- Altitude at deployment, `z0_infl = z0 - 0.5 * g * t_deploy**2` (line 81). -/
def z0Infl (c : Config) : ℚ := c.z0 - 1/2 * c.g * c.t_deploy ^ 2

/-- Inflation-phase velocity `v = v0 + a_infl * t_rel` with
`t_rel = t - t_deploy` (lines 80, 82). -/
def inflV (c : Config) (aInfl t : ℚ) : ℚ := v0 c + aInfl * (t - c.t_deploy)

/-- Inflation-phase altitude `z = z0_infl + v0 * t_rel + 0.5 * a_infl * t_rel**2`
(line 83). -/
def inflZ (c : Config) (aInfl t : ℚ) : ℚ :=
  z0Infl c + v0 c * (t - c.t_deploy) + 1/2 * aInfl * (t - c.t_deploy) ^ 2

/-- Altitude at the end of inflation,
`z0_term = z0 - 0.5 * g * t_deploy**2 + (v0 * t_inflation + 0.5 * a_infl * t_inflation**2)`
(lines 89-90). -/
def z0Term (c : Config) (aInfl : ℚ) : ℚ :=
  c.z0 - 1/2 * c.g * c.t_deploy ^ 2 + (v0 c * c.t_infl + 1/2 * aInfl * c.t_infl ^ 2)

/-- Terminal-descent altitude `z = z0_term + v * t_rel` with `v = -vt` and
`t_rel = t - (t_deploy + t_inflation)` (lines 87-91). -/
def termZ (c : Config) (aInfl vt t : ℚ) : ℚ :=
  z0Term c aInfl + (-vt) * (t - (c.t_deploy + c.t_infl))

/-- Altitude selected by the phase dispatch of the loop body
(lines 74-91): free fall for `t < t_deploy`, inflation for
`t < t_deploy + t_inflation`, terminal descent otherwise. -/
def stageZ (c : Config) (vt aInfl t : ℚ) : ℚ :=
  if t < c.t_deploy then freeFallZ c t
  else if t < c.t_deploy + c.t_infl then inflZ c aInfl t
  else termZ c aInfl vt t

/-- Velocity selected by the phase dispatch of the loop body. -/
def stageV (c : Config) (vt aInfl t : ℚ) : ℚ :=
  if t < c.t_deploy then freeFallV c t
  else if t < c.t_deploy + c.t_infl then inflV c aInfl t
  else -vt

/-- Acceleration selected by the phase dispatch of the loop body:
`-g`, `a_infl`, then `0`. -/
def stageA (c : Config) (aInfl t : ℚ) : ℚ :=
  if t < c.t_deploy then -c.g
  else if t < c.t_deploy + c.t_infl then aInfl
  else 0

/-- Fuel-indexed transcription of the sampling loop (lines 73-104):
`while z > 0 and t <= t_max`, evaluate the active phase, accumulate
`x += horizontal_speed * dt`, append the sample with altitude clamped by
`max(z, 0)`, `break` once the freshly computed altitude is `<= 0`,
otherwise advance `t += dt`.  The state `(t, z, x)` carries the loop
variables; `z` is the previous iteration's unclamped altitude. -/
def genAux (c : Config) (vt aInfl dt : ℚ) : Nat → ℚ → ℚ → ℚ → List Sample
  | 0, _, _, _ => []
  | n + 1, t, z, x =>
    if 0 < z ∧ t ≤ c.t_max then
      if stageZ c vt aInfl t ≤ 0 then
        [⟨t, max (stageZ c vt aInfl t) 0, stageV c vt aInfl t,
          x + c.hspeed * dt, stageA c aInfl t⟩]
      else
        ⟨t, max (stageZ c vt aInfl t) 0, stageV c vt aInfl t,
          x + c.hspeed * dt, stageA c aInfl t⟩ ::
          genAux c vt aInfl dt n (t + dt) (stageZ c vt aInfl t) (x + c.hspeed * dt)
    else []

/-- Fuel sufficient for the loop to exit through its own condition: the
loop body runs only while `t ≤ t_max` and `t` grows by `dt` each step. -/
def stepFuel (c : Config) (dt : ℚ) : Nat := (⌊c.t_max / dt⌋ + 2).toNat

/-- Embedding of `generate_trajectory` (lines 55-106): run the sampling
loop from `t = 0`, `z = z0`, `x = 0`. -/
def generate_trajectory (c : Config) (vt aInfl dt : ℚ) : List Sample :=
  genAux c vt aInfl dt (stepFuel c dt) 0 c.z0 0

/-- Real-valued embedding of `terminal_velocity` (lines 46-53):
`sqrt((2 * m * g) / (rho * drag_area))`. -/
noncomputable def terminal_velocity (m g rho dragArea : ℝ) : ℝ :=
  Real.sqrt (2 * m * g / (rho * dragArea))

/-- Rational characterisation of the terminal velocity: `vt` is the
nonnegative root of `vt^2 = 2 m g / (rho * dragArea)`. -/
def isTerminalVelocityQ (c : Config) (vt : ℚ) : Prop :=
  0 ≤ vt ∧ vt ^ 2 = 2 * c.m * c.g / (c.rho * c.dragArea)

instance (c : Config) (vt : ℚ) : Decidable (isTerminalVelocityQ c vt) := by
  unfold isTerminalVelocityQ; infer_instance

/-- Embedding of `FlightStages.__init__` (lines 20-27): the only checks
performed are on the environment altitude, `t_max`, the parachute's
inflation time and `t_deploy`; the total mass `payload.mass +
parachute.mass` (line 44) and the drag area are stored without
validation. -/
def flightStagesInit (payloadMass parachuteMass dragArea g rho altitude
    t_max t_deploy inflation_time hspeed : ℚ) : Except String Config :=
  if altitude ≤ 0 then .error "Initial height must be greater than zero."
  else if t_max ≤ 0 then .error "Maximum time must be greater than zero."
  else if inflation_time ≤ 0 then .error "Inflation time must be greater than zero."
  else if t_deploy < 0 then .error "Deployment time cannot be negative."
  else .ok ⟨payloadMass + parachuteMass, g, rho, dragArea, altitude,
            t_max, t_deploy, inflation_time, hspeed⟩

/-- Embedding of `ParachuteFlightSimulation.__init__` (lines 224-248):
validates mass, drag coefficient, area, initial height, `t_max`,
inflation time and deployment time, in source order. -/
def pfsInit (mass drag_coefficient area initial_height t_max t_deploy
    t_inflation horizontal_speed air_density gravity : ℚ) : Except String Config :=
  if mass ≤ 0 then .error "La masa debe ser mayor que cero."
  else if drag_coefficient ≤ 0 ∨ area ≤ 0 then
    .error "El coeficiente de arrastre y el área deben ser mayores que cero."
  else if initial_height ≤ 0 then .error "La altura inicial debe ser mayor que cero."
  else if t_max ≤ 0 then .error "El tiempo máximo debe ser mayor que cero."
  else if t_inflation ≤ 0 then .error "El tiempo de inflado debe ser mayor que cero."
  else if t_deploy < 0 then .error "El tiempo de despliegue no puede ser negativo."
  else .ok ⟨mass, gravity, air_density, drag_coefficient * area, initial_height,
            t_max, t_deploy, t_inflation, horizontal_speed⟩

/-- Embedding of `get_state_at_time` (lines 168-190): regenerate the
trajectory, then if the query exceeds the last sampled time return the
last sample flagged out-of-range, otherwise return the sample whose time
is nearest to the query (`np.abs(t - time_query).argmin()`, which takes
the first minimiser, as `List.argmin` does).  An empty trajectory would
make the source raise on `t[-1]`; the embedding returns `none` there. -/
def get_state_at_time (c : Config) (vt aInfl dt time_query : ℚ) :
    Option (Sample × Bool) :=
  let traj := generate_trajectory c vt aInfl dt
  match traj.getLast? with
  | none => none
  | some last =>
    if last.t < time_query then some (last, true)
    else (traj.argmin (fun s => |s.t - time_query|)).map (fun s => (s, false))

/-! Helper lemmas about the sampling loop. -/

/-- Every sample stored by the loop carries the clamped altitude, the
velocity and the acceleration of the active phase at its own time. -/
lemma genAux_fields (c : Config) (vt aInfl dt : ℚ) :
    ∀ (n : Nat) (t z x : ℚ), ∀ s ∈ genAux c vt aInfl dt n t z x,
      s.z = max (stageZ c vt aInfl s.t) 0 ∧ s.v = stageV c vt aInfl s.t ∧
        s.a = stageA c aInfl s.t := by
  intro n
  induction n with
  | zero => intro t z x s hs; simp [genAux] at hs
  | succ n ih =>
    intro t z x s hs
    rw [genAux] at hs
    by_cases h1 : 0 < z ∧ t ≤ c.t_max
    · rw [if_pos h1] at hs
      by_cases h2 : stageZ c vt aInfl t ≤ 0
      · rw [if_pos h2, List.mem_singleton] at hs
        subst hs; exact ⟨rfl, rfl, rfl⟩
      · rw [if_neg h2, List.mem_cons] at hs
        rcases hs with hs | hs
        · subst hs; exact ⟨rfl, rfl, rfl⟩
        · exact ih _ _ _ s hs
    · rw [if_neg h1] at hs; simp at hs

/-- Every stored sample's time is at least the loop's entry time. -/
lemma genAux_t_lower (c : Config) (vt aInfl dt : ℚ) (hdt : 0 ≤ dt) :
    ∀ (n : Nat) (t z x : ℚ), ∀ s ∈ genAux c vt aInfl dt n t z x, t ≤ s.t := by
  intro n
  induction n with
  | zero => intro t z x s hs; simp [genAux] at hs
  | succ n ih =>
    intro t z x s hs
    rw [genAux] at hs
    by_cases h1 : 0 < z ∧ t ≤ c.t_max
    · rw [if_pos h1] at hs
      by_cases h2 : stageZ c vt aInfl t ≤ 0
      · rw [if_pos h2, List.mem_singleton] at hs; subst hs; exact le_refl _
      · rw [if_neg h2, List.mem_cons] at hs
        rcases hs with hs | hs
        · subst hs; exact le_refl _
        · calc t ≤ t + dt := by linarith
            _ ≤ s.t := ih _ _ _ s hs
    · rw [if_neg h1] at hs; simp at hs

/-- Every stored sample's time respects the loop guard `t ≤ t_max`. -/
lemma genAux_t_le_tmax (c : Config) (vt aInfl dt : ℚ) :
    ∀ (n : Nat) (t z x : ℚ), ∀ s ∈ genAux c vt aInfl dt n t z x, s.t ≤ c.t_max := by
  intro n
  induction n with
  | zero => intro t z x s hs; simp [genAux] at hs
  | succ n ih =>
    intro t z x s hs
    rw [genAux] at hs
    by_cases h1 : 0 < z ∧ t ≤ c.t_max
    · rw [if_pos h1] at hs
      by_cases h2 : stageZ c vt aInfl t ≤ 0
      · rw [if_pos h2, List.mem_singleton] at hs; subst hs; exact h1.2
      · rw [if_neg h2, List.mem_cons] at hs
        rcases hs with hs | hs
        · subst hs; exact h1.2
        · exact ih _ _ _ s hs
    · rw [if_neg h1] at hs; simp at hs

/-- Sample times are strictly increasing along the generated list. -/
lemma genAux_times_chain (c : Config) (vt aInfl dt : ℚ) (hdt : 0 < dt) :
    ∀ (n : Nat) (t z x : ℚ),
      ((genAux c vt aInfl dt n t z x).map Sample.t).Chain' (fun a b => a < b) := by
  intro n
  induction n with
  | zero => intro t z x; simp [genAux]
  | succ n ih =>
    intro t z x
    rw [genAux]
    by_cases h1 : 0 < z ∧ t ≤ c.t_max
    · rw [if_pos h1]
      by_cases h2 : stageZ c vt aInfl t ≤ 0
      · rw [if_pos h2]; simp
      · rw [if_neg h2]
        rw [List.map_cons, List.chain'_cons']
        refine ⟨?_, ih _ _ _⟩
        intro b hb
        have hb' : b ∈ (genAux c vt aInfl dt n (t + dt) (stageZ c vt aInfl t)
            (x + c.hspeed * dt)).map Sample.t := List.mem_of_mem_head? hb
        rcases List.mem_map.1 hb' with ⟨s, hs, rfl⟩
        have := genAux_t_lower c vt aInfl dt (le_of_lt hdt) n _ _ _ s hs
        linarith
    · rw [if_neg h1]; simp

/-- Every sample strictly before the last one is strictly above ground:
the loop `break`s at the first sample whose freshly computed altitude is
at or below zero. -/
lemma genAux_dropLast_pos (c : Config) (vt aInfl dt : ℚ) :
    ∀ (n : Nat) (t z x : ℚ), ∀ s ∈ (genAux c vt aInfl dt n t z x).dropLast,
      0 < s.z := by
  intro n
  induction n with
  | zero => intro t z x s hs; simp [genAux] at hs
  | succ n ih =>
    intro t z x s hs
    rw [genAux] at hs
    by_cases h1 : 0 < z ∧ t ≤ c.t_max
    · rw [if_pos h1] at hs
      by_cases h2 : stageZ c vt aInfl t ≤ 0
      · rw [if_pos h2] at hs; simp at hs
      · rw [if_neg h2] at hs
        rcases hn : genAux c vt aInfl dt n (t + dt) (stageZ c vt aInfl t)
            (x + c.hspeed * dt) with _ | ⟨b, l⟩
        · rw [hn] at hs; simp at hs
        · rw [hn, List.dropLast_cons₂, List.mem_cons] at hs
          rcases hs with hs | hs
          · subst hs
            have h2' : 0 < stageZ c vt aInfl t := lt_of_not_le h2
            simpa [max_eq_left (le_of_lt h2')] using h2'
          · have := ih (t + dt) (stageZ c vt aInfl t) (x + c.hspeed * dt) s
            rw [hn] at this
            exact this hs
    · rw [if_neg h1] at hs; simp at hs

/-- Advancing the loop time by one step lowers the remaining-step floor
by exactly one. -/
lemma floor_step (dt q t : ℚ) (hdt : 0 < dt) :
    ⌊(q - (t + dt)) / dt⌋ = ⌊(q - t) / dt⌋ - 1 := by
  have h : (q - (t + dt)) / dt = (q - t) / dt - 1 := by
    field_simp
    ring
  rw [h]
  exact_mod_cast Int.floor_sub_int ((q - t) / dt) 1

/-- The loop performs at most `⌊(t_max - t)/dt⌋ + 1` iterations from
time `t`. -/
lemma genAux_length_le (c : Config) (vt aInfl dt : ℚ) (hdt : 0 < dt) :
    ∀ (n : Nat) (t z x : ℚ),
      (genAux c vt aInfl dt n t z x).length ≤ (⌊(c.t_max - t) / dt⌋ + 1).toNat := by
  intro n
  induction n with
  | zero => intro t z x; simp [genAux]
  | succ n ih =>
    intro t z x
    rw [genAux]
    by_cases h1 : 0 < z ∧ t ≤ c.t_max
    · rw [if_pos h1]
      have hfl : 0 ≤ ⌊(c.t_max - t) / dt⌋ := by
        apply Int.floor_nonneg.2
        have : 0 ≤ c.t_max - t := by linarith [h1.2]
        positivity
      by_cases h2 : stageZ c vt aInfl t ≤ 0
      · rw [if_pos h2]
        simp only [List.length_singleton]
        omega
      · rw [if_neg h2]
        simp only [List.length_cons]
        have := ih (t + dt) (stageZ c vt aInfl t) (x + c.hspeed * dt)
        rw [floor_step dt c.t_max t hdt] at this
        omega
    · rw [if_neg h1]; simp

/-- With fuel at least `⌊(t_max - t)/dt⌋ + 2`, one more unit of fuel
does not change the generated list: the loop exits through its own
condition before the fuel runs out. -/
lemma genAux_fuel_succ (c : Config) (vt aInfl dt : ℚ) (hdt : 0 < dt) :
    ∀ (n : Nat) (t z x : ℚ), (⌊(c.t_max - t) / dt⌋ + 2).toNat ≤ n →
      genAux c vt aInfl dt n t z x = genAux c vt aInfl dt (n + 1) t z x := by
  intro n
  induction n with
  | zero =>
    intro t z x hn
    have hfl : ⌊(c.t_max - t) / dt⌋ ≤ -2 := by omega
    have hq : (c.t_max - t) / dt < -1 := by
      have := Int.lt_floor_add_one ((c.t_max - t) / dt)
      have h2 : (⌊(c.t_max - t) / dt⌋ : ℚ) ≤ -2 := by exact_mod_cast hfl
      linarith
    have ht : c.t_max < t := by
      have := (div_lt_iff₀ hdt).1 hq
      linarith
    rw [genAux, genAux, if_neg]
    intro h; linarith [h.2]
  | succ n ih =>
    intro t z x hn
    conv_rhs => rw [genAux]
    rw [genAux]
    by_cases h1 : 0 < z ∧ t ≤ c.t_max
    · rw [if_pos h1, if_pos h1]
      by_cases h2 : stageZ c vt aInfl t ≤ 0
      · rw [if_pos h2, if_pos h2]
      · rw [if_neg h2, if_neg h2]
        congr 1
        apply ih
        rw [floor_step dt c.t_max t hdt]
        have hfl : 0 ≤ ⌊(c.t_max - t) / dt⌋ := by
          apply Int.floor_nonneg.2
          have : 0 ≤ c.t_max - t := by linarith [h1.2]
          positivity
        omega
    · rw [if_neg h1, if_neg h1]

/-- With sufficient fuel the generated list no longer depends on the
fuel at all. -/
lemma genAux_fuel_add (c : Config) (vt aInfl dt : ℚ) (hdt : 0 < dt) :
    ∀ (k n : Nat) (t z x : ℚ), (⌊(c.t_max - t) / dt⌋ + 2).toNat ≤ n →
      genAux c vt aInfl dt (n + k) t z x = genAux c vt aInfl dt n t z x := by
  intro k
  induction k with
  | zero => intro n t z x _; rfl
  | succ k ih =>
    intro n t z x hn
    have h1 : genAux c vt aInfl dt (n + k) t z x = genAux c vt aInfl dt n t z x :=
      ih n t z x hn
    have h2 : genAux c vt aInfl dt (n + k) t z x =
        genAux c vt aInfl dt (n + k + 1) t z x :=
      genAux_fuel_succ c vt aInfl dt hdt (n + k) t z x (le_trans hn (Nat.le_add_right n k))
    show genAux c vt aInfl dt (n + k + 1) t z x = genAux c vt aInfl dt n t z x
    rw [← h2, h1]

/-- The first loop iteration always stores a sample when the initial
altitude is positive and the horizon is nonnegative. -/
lemma genAux_ne_nil (c : Config) (vt aInfl dt : ℚ) (n : Nat) (z x : ℚ)
    (hz : 0 < z) (htm : 0 ≤ c.t_max) :
    genAux c vt aInfl dt (n + 1) 0 z x ≠ [] := by
  rw [genAux, if_pos ⟨hz, htm⟩]
  by_cases h2 : stageZ c vt aInfl 0 ≤ 0
  · rw [if_pos h2]; simp
  · rw [if_neg h2]; simp

/-- The sample of step `K` is in the generated list provided the loop
guard holds up to step `K` and every earlier step computed a strictly
positive altitude. -/
lemma exists_mem_genAux (c : Config) (vt aInfl dt : ℚ) :
    ∀ (K n : Nat) (t z x : ℚ), K < n → 0 < z →
      (∀ j : Nat, j ≤ K → t + j * dt ≤ c.t_max) →
      (∀ j : Nat, j < K → 0 < stageZ c vt aInfl (t + j * dt)) →
      ∃ s ∈ genAux c vt aInfl dt n t z x,
        s.t = t + K * dt ∧ s.z = max (stageZ c vt aInfl (t + K * dt)) 0 ∧
        s.a = stageA c aInfl (t + K * dt) := by
  intro K
  induction K with
  | zero =>
    intro n t z x hn hz hle _hpos
    obtain ⟨n', rfl⟩ : ∃ n', n = n' + 1 := ⟨n - 1, by omega⟩
    rw [genAux]
    have ht : t ≤ c.t_max := by simpa using hle 0 (le_refl 0)
    rw [if_pos ⟨hz, ht⟩]
    by_cases h2 : stageZ c vt aInfl t ≤ 0
    · rw [if_pos h2]
      exact ⟨_, List.mem_singleton_self _, by simp, by simp, by simp⟩
    · rw [if_neg h2]
      exact ⟨_, List.mem_cons_self _ _, by simp, by simp, by simp⟩
  | succ K ih =>
    intro n t z x hn hz hle hpos
    obtain ⟨n', rfl⟩ : ∃ n', n = n' + 1 := ⟨n - 1, by omega⟩
    rw [genAux]
    have ht : t ≤ c.t_max := by simpa using hle 0 (by omega)
    rw [if_pos ⟨hz, ht⟩]
    have h0 : 0 < stageZ c vt aInfl t := by simpa using hpos 0 (by omega)
    rw [if_neg (not_le.2 h0)]
    have harg : ∀ j : Nat, t + dt + (j : ℚ) * dt = t + ((j : ℚ) + 1) * dt := by
      intro j; ring
    obtain ⟨s, hs, hst, hsz, hsa⟩ :=
      ih n' (t + dt) (stageZ c vt aInfl t) (x + c.hspeed * dt) (by omega) h0
        (fun j hj => by
          have := hle (j + 1) (by omega)
          push_cast at this
          rw [harg j]
          linarith)
        (fun j hj => by
          have := hpos (j + 1) (by omega)
          push_cast at this
          rw [harg j]
          convert this using 2)
    refine ⟨s, List.mem_cons_of_mem _ hs, ?_, ?_, ?_⟩
    · rw [hst]; push_cast; ring
    · rw [hsz, harg K]; push_cast; ring_nf
    · rw [hsa, harg K]; push_cast; ring_nf

/-- For a list whose mapped values are pairwise increasing, every member
maps below the last element. -/
lemma mem_le_getLast {α : Type} (f : α → ℚ) :
    ∀ (l : List α) (b : α), l.getLast? = some b →
      (l.map f).Pairwise (fun a u => a < u) →
      ∀ s ∈ l, f s ≤ f b := by
  intro l
  induction l with
  | nil => intro b hb; simp at hb
  | cons a l ih =>
    intro b hb hp s hs
    rcases hn : l with _ | ⟨c, l'⟩
    · subst hn
      simp only [List.getLast?_singleton, Option.some_inj] at hb
      subst hb
      rcases List.mem_singleton.1 hs with rfl
      exact le_refl _
    · subst hn
      rw [List.getLast?_cons_cons] at hb
      rw [List.map_cons, List.pairwise_cons] at hp
      rcases List.mem_cons.1 hs with rfl | hs
      · have hbm : b ∈ c :: l' := List.mem_of_getLast?_eq_some hb
        exact le_of_lt (hp.1 _ (List.mem_map_of_mem f hbm))
      · exact ih b hb hp.2 s hs

/-! Embedding of `parachute.py`.  `Parachute.__init__` lowercases the
shape once and stores it; the static estimators re-lowercase their
argument, which is the identity on the already-lowercased string the
constructor passes them, so the embeddings below take the lowercased
shape directly. -/

/-- Shape keys of the two preset tables in `parachute.py` (lines 54-62
and 70-78; both tables list the same seven shapes). -/
def knownShapes : List String :=
  ["flat", "hemispherical", "conical", "ribbon", "reefed", "guide_surface", "square"]

/-- Embedding of `Parachute.estimate_opening_parameters` (lines 49-63):
shape-keyed `(opening force coefficient, inflation time)` presets with
default `(1.5, 1.0)` for a shape not in the table. -/
def estimate_opening_parameters (shape : String) : ℚ × ℚ :=
  if shape = "flat" then (9/5, 7/10)
  else if shape = "hemispherical" then (3/2, 1)
  else if shape = "conical" then (13/10, 6/5)
  else if shape = "ribbon" then (1, 9/5)
  else if shape = "reefed" then (3/5, 2)
  else if shape = "guide_surface" then (7/5, 1)
  else if shape = "square" then (6/5, 1)
  else (3/2, 1)

/-- Shape-keyed suspension-line ratio table of
`Parachute.estimate_suspension_line_length` (lines 70-79), default `1.2`. -/
def lineRatio (shape : String) : ℚ :=
  if shape = "flat" then 1
  else if shape = "hemispherical" then 6/5
  else if shape = "conical" then 13/10
  else if shape = "square" then 11/10
  else if shape = "guide_surface" then 13/10
  else if shape = "ribbon" then 1
  else if shape = "reefed" then 1
  else 6/5

/-- Embedding of `Parachute.estimate_suspension_line_length` (lines
65-80): `factor * diameter`. -/
def estimate_suspension_line_length (diameter : ℚ) (shape : String) : ℚ :=
  lineRatio shape * diameter

/-- Reference surface area used by `Parachute.calculate_drag_area`
(lines 85-95): `diameter ** 2` for a square canopy, `(pi / 4) *
diameter ** 2` for every other shape. -/
noncomputable def referenceArea (shape : String) (diameter : ℝ) : ℝ :=
  if shape = "square" then diameter ^ 2 else Real.pi / 4 * diameter ^ 2

/-- Embedding of `Parachute.calculate_drag_area` (lines 85-95): the
stored `area` is `drag_coefficient * surface_area`. -/
noncomputable def calculate_drag_area (shape : String) (drag_coefficient diameter : ℝ) : ℝ :=
  drag_coefficient * referenceArea shape diameter

/-- Parachute object state after `__init__` (lines 5-43). -/
structure Parachute where
  diameter : ℚ
  drag_coefficient : ℚ
  mass : Option ℚ
  shape : String
  area : ℝ
  suspension_line_length : ℚ
  opening_force_coefficient : ℚ
  inflation_time : ℚ

/-- Embedding of `Parachute.__init__` (lines 5-43): derive the drag
area, estimate the suspension line length when absent, and fill the
opening-force coefficient and inflation time from the preset table when
either is absent.  The source first normalises the shape with
`shape.lower()` and stores the lowercased string; the embedding takes
that lowercased shape as its input.  The constructor contains no
validation and never raises, so the embedding is a total function. -/
noncomputable def mkParachute (diameter drag_coefficient : ℚ)
    (suspension_line_length : Option ℚ) (shape : String)
    (inflation_time opening_force_coefficient mass : Option ℚ) : Parachute :=
  { diameter := diameter
    drag_coefficient := drag_coefficient
    mass := mass
    shape := shape
    area := calculate_drag_area shape (drag_coefficient : ℝ) (diameter : ℝ)
    suspension_line_length :=
      (suspension_line_length.getD (estimate_suspension_line_length diameter shape))
    opening_force_coefficient :=
      (opening_force_coefficient.getD (estimate_opening_parameters shape).1)
    inflation_time := (inflation_time.getD (estimate_opening_parameters shape).2) }

/-! Embedding of `Oscillations.py` (`ParachuteOscillationEstimator`). -/

/-- Oscillation estimator state relevant to the damped-oscillator model:
damping ratio, natural frequency and initial angle in radians
(`np.deg2rad(initial_angle)` at line 33 of `Oscillations.py`). -/
structure OscillationEstimator where
  zeta : ℝ
  omega_n : ℝ
  theta0 : ℝ

/-- Degrees-to-radians conversion `np.deg2rad`. -/
noncomputable def deg2rad (x : ℝ) : ℝ := x * Real.pi / 180

/-- Embedding of `ParachuteOscillationEstimator.__init__` (lines 23-40):
the damping ratio is stored unchecked — the constructor performs no
validation at all — and the initial angle is converted to radians.
The constructor never raises, so the embedding is a total function. -/
noncomputable def oscInit (damping_ratio natural_freq initial_angle : ℝ) :
    OscillationEstimator :=
  { zeta := damping_ratio, omega_n := natural_freq, theta0 := deg2rad initial_angle }

/-- Damped natural frequency `omega_d = omega_n * sqrt(1 - zeta**2)`
(`simulate`, line 59). -/
noncomputable def omega_d (e : OscillationEstimator) : ℝ :=
  e.omega_n * Real.sqrt (1 - e.zeta ^ 2)

/-- Oscillation angle in radians,
`theta = theta0 * exp(-zeta * omega_n * t) * cos(omega_d * t)`
(`simulate`, line 60). -/
noncomputable def oscTheta (e : OscillationEstimator) (t : ℝ) : ℝ :=
  e.theta0 * Real.exp (-e.zeta * e.omega_n * t) * Real.cos (omega_d e * t)

/-! Claim theorems. -/

/-- C1: for every trajectory-engine configuration with total mass,
gravity, air density and drag area all positive, `terminal_velocity`
returns `sqrt(2*m*g/(rho*drag_area))` — a positive value solving the
force balance `rho * dragArea * v^2 / 2 = m * g` where drag equals
weight — and on the spec's example (`m=80 kg`, `drag_area=0.75 m²`,
`rho=1.225`, `g=9.81`) it is approximately `41.4 m/s` (within `0.1`). -/
theorem C1_terminal_velocity_formula :
    (∀ m g rho dragArea : ℝ, 0 < m → 0 < g → 0 < rho → 0 < dragArea →
      terminal_velocity m g rho dragArea = Real.sqrt (2 * m * g / (rho * dragArea)) ∧
      0 < terminal_velocity m g rho dragArea ∧
      rho * dragArea * terminal_velocity m g rho dragArea ^ 2 / 2 = m * g) ∧
    |terminal_velocity 80 9.81 1.225 0.75 - 41.4| < 0.1 := by
  constructor
  · intro m g rho dragArea hm hg hr hA
    refine ⟨rfl, ?_, ?_⟩
    · rw [terminal_velocity]
      apply Real.sqrt_pos.2
      positivity
    · rw [terminal_velocity, Real.sq_sqrt (by positivity)]
      field_simp
      ring
  · rw [terminal_velocity]
    have h1 : (2 * (80:ℝ) * 9.81 / (1.225 * 0.75)) = 83712 / 49 := by norm_num
    rw [h1]
    have hlow : (41.3 : ℝ) < Real.sqrt (83712 / 49) :=
      (Real.lt_sqrt (by norm_num)).2 (by norm_num)
    have hhigh : Real.sqrt (83712 / 49) < 41.4 :=
      (Real.sqrt_lt' (by norm_num)).2 (by norm_num)
    rw [abs_lt]
    constructor <;> linarith

/-- Witness for C1 at `m = 1`, `g = 1`, `rho = 1`, `dragArea = 2`. -/
theorem C1_terminal_velocity_formula_witness :
    ((0:ℝ) < 1 ∧ (0:ℝ) < 2) ∧
    (terminal_velocity 1 1 1 2 = Real.sqrt (2 * 1 * 1 / (1 * 2)) ∧
      0 < terminal_velocity 1 1 1 2 ∧
      1 * 2 * terminal_velocity 1 1 1 2 ^ 2 / 2 = 1 * 1) :=
  ⟨⟨one_pos, two_pos⟩,
    C1_terminal_velocity_formula.1 1 1 1 2 one_pos one_pos one_pos two_pos⟩

/-- C2 counterexample: the valid configuration `m=5, g=10, rho=1,
drag_area=1, z0=10000, t_max=20, t_deploy=10, t_infl=1` has terminal
velocity exactly `10`, the `FlightStages` inflation acceleration is
`min((-100+10)/1, 40) = -90`, and the inflation-phase sample stored at
`t = 10` carries it, with `|-90| = 90 > 4*g = 40`: the `min` cap bounds
the acceleration only from above, so the claimed magnitude bound
`|a_infl| ≤ 4*g` is false. -/
theorem C2_cap_magnitude_counterexample :
    isTerminalVelocityQ ⟨5, 10, 1, 1, 10000, 20, 10, 1, 0⟩ 10 ∧
    aInflFS ⟨5, 10, 1, 1, 10000, 20, 10, 1, 0⟩ 10 = -90 ∧
    ∃ s ∈ generate_trajectory ⟨5, 10, 1, 1, 10000, 20, 10, 1, 0⟩ 10
        (aInflFS ⟨5, 10, 1, 1, 10000, 20, 10, 1, 0⟩ 10) 1,
      (10:ℚ) ≤ s.t ∧ s.t < 10 + 1 ∧ ¬ |s.a| ≤ 4 * 10 := by
  have hA : aInflFS ⟨5, 10, 1, 1, 10000, 20, 10, 1, 0⟩ 10 = -90 := by
    rw [aInflFS, v0]
    norm_num [min_def]
  refine ⟨by norm_num [isTerminalVelocityQ], hA, ?_⟩
  rw [hA, generate_trajectory]
  obtain ⟨s, hs, hst, _hsz, hsa⟩ :=
    exists_mem_genAux ⟨5, 10, 1, 1, 10000, 20, 10, 1, 0⟩ 10 (-90) 1 10
      (stepFuel ⟨5, 10, 1, 1, 10000, 20, 10, 1, 0⟩ 1) 0 10000 0
      (by
        show 10 < (⌊(20:ℚ)/1⌋ + 2).toNat
        norm_num)
      (by norm_num)
      (by
        intro j hj
        have hj' : (j : ℚ) ≤ 10 := by exact_mod_cast hj
        show (0:ℚ) + (j:ℚ) * 1 ≤ 20
        linarith)
      (by
        intro j hj
        have hj9 : (j : ℚ) ≤ 9 := by exact_mod_cast Nat.lt_succ_iff.mp hj
        have hj0 : (0 : ℚ) ≤ (j : ℚ) := Nat.cast_nonneg j
        have hcond : (0:ℚ) + (j:ℚ) * 1 <
            (⟨5, 10, 1, 1, 10000, 20, 10, 1, 0⟩ : Config).t_deploy := by
          show (0:ℚ) + (j:ℚ) * 1 < 10
          linarith
        rw [stageZ, if_pos hcond, freeFallZ]
        show (0:ℚ) < 10000 - 1/2 * 10 * ((0:ℚ) + (j:ℚ) * 1) ^ 2
        nlinarith)
  have hst' : s.t = 10 := by rw [hst]; norm_num
  refine ⟨s, hs, by rw [hst'], by rw [hst']; norm_num, ?_⟩
  rw [hsa, stageA]
  have h1 : ¬ ((0:ℚ) + (10:ℕ) * 1 < (⟨5, 10, 1, 1, 10000, 20, 10, 1, 0⟩ : Config).t_deploy) := by
    show ¬ ((0:ℚ) + (10:ℕ) * 1 < 10)
    push_cast
    norm_num
  have h2 : (0:ℚ) + (10:ℕ) * 1 < (⟨5, 10, 1, 1, 10000, 20, 10, 1, 0⟩ : Config).t_deploy +
      (⟨5, 10, 1, 1, 10000, 20, 10, 1, 0⟩ : Config).t_infl := by
    show (0:ℚ) + (10:ℕ) * 1 < 10 + 1
    push_cast
    norm_num
  rw [if_neg h1, if_pos h2]
  norm_num

/-- C2 (amended): the `FlightStages` inflation acceleration equals
`min((v0 + v_t)/t_inflation, 4*g)`: it equals the linear-transition
value `(v0 + v_t)/t_inflation` whenever that value is at most `4*g`, it
never exceeds `4*g`, and every stored inflation-phase sample carries
exactly this value; the cap is one-sided, so no bound on its magnitude
holds (see the counterexample). -/
theorem C2_cap_amended (c : Config) (vt dt : ℚ) (_hvt : isTerminalVelocityQ c vt) :
    aInflFS c vt ≤ 4 * c.g ∧
    ((v0 c + vt) / c.t_infl ≤ 4 * c.g → aInflFS c vt = (v0 c + vt) / c.t_infl) ∧
    (∀ s ∈ generate_trajectory c vt (aInflFS c vt) dt,
      c.t_deploy ≤ s.t → s.t < c.t_deploy + c.t_infl → s.a = aInflFS c vt) := by
  refine ⟨min_le_right _ _, fun h => min_eq_left h, ?_⟩
  intro s hs h1 h2
  have hf := (genAux_fields c vt (aInflFS c vt) dt _ _ _ _ s hs).2.2
  rw [hf, stageA, if_neg (not_lt.2 h1), if_pos h2]

/-- Witness for C2 (amended) on the configuration of the counterexample. -/
theorem C2_cap_amended_witness :
    isTerminalVelocityQ ⟨5, 10, 1, 1, 10000, 20, 10, 1, 0⟩ 10 ∧
    (aInflFS ⟨5, 10, 1, 1, 10000, 20, 10, 1, 0⟩ 10 ≤ 4 * (⟨5, 10, 1, 1, 10000, 20, 10, 1, 0⟩ : Config).g ∧
    ((v0 ⟨5, 10, 1, 1, 10000, 20, 10, 1, 0⟩ + 10) / (⟨5, 10, 1, 1, 10000, 20, 10, 1, 0⟩ : Config).t_infl ≤ 4 * (⟨5, 10, 1, 1, 10000, 20, 10, 1, 0⟩ : Config).g →
      aInflFS ⟨5, 10, 1, 1, 10000, 20, 10, 1, 0⟩ 10 =
        (v0 ⟨5, 10, 1, 1, 10000, 20, 10, 1, 0⟩ + 10) / (⟨5, 10, 1, 1, 10000, 20, 10, 1, 0⟩ : Config).t_infl) ∧
    (∀ s ∈ generate_trajectory ⟨5, 10, 1, 1, 10000, 20, 10, 1, 0⟩ 10
        (aInflFS ⟨5, 10, 1, 1, 10000, 20, 10, 1, 0⟩ 10) 1,
      (⟨5, 10, 1, 1, 10000, 20, 10, 1, 0⟩ : Config).t_deploy ≤ s.t →
      s.t < (⟨5, 10, 1, 1, 10000, 20, 10, 1, 0⟩ : Config).t_deploy + (⟨5, 10, 1, 1, 10000, 20, 10, 1, 0⟩ : Config).t_infl →
      s.a = aInflFS ⟨5, 10, 1, 1, 10000, 20, 10, 1, 0⟩ 10)) :=
  ⟨by norm_num [isTerminalVelocityQ],
    C2_cap_amended ⟨5, 10, 1, 1, 10000, 20, 10, 1, 0⟩ 10 1 (by norm_num [isTerminalVelocityQ])⟩

/-- C3 counterexample: for the valid configuration `m=1, g=8, rho=1,
drag_area=1, t_deploy=2, t_infl=2` (terminal velocity exactly `4`), the
inflation-phase velocity formula evaluated at the phase-2→3 boundary
time `t_deploy + t_inflation = 4` gives `-28`, while the
terminal-descent formula gives `-v_t = -4`: the two phase formulas
disagree at the boundary, so the claimed velocity continuity fails. -/
theorem C3_boundary_velocity_counterexample :
    isTerminalVelocityQ ⟨1, 8, 1, 1, 1000, 60, 2, 2, 1⟩ 4 ∧
    inflV ⟨1, 8, 1, 1, 1000, 60, 2, 2, 1⟩
      (aInflFS ⟨1, 8, 1, 1, 1000, 60, 2, 2, 1⟩ 4) (2 + 2) = -28 ∧
    stageV ⟨1, 8, 1, 1, 1000, 60, 2, 2, 1⟩ 4
      (aInflFS ⟨1, 8, 1, 1, 1000, 60, 2, 2, 1⟩ 4) (2 + 2) = -4 ∧
    (-28 : ℚ) ≠ -4 := by
  have hA : aInflFS ⟨1, 8, 1, 1, 1000, 60, 2, 2, 1⟩ 4 = -6 := by
    rw [aInflFS, v0]
    norm_num [min_def]
  refine ⟨by norm_num [isTerminalVelocityQ], ?_, ?_, by norm_num⟩
  · rw [hA, inflV, v0]
    norm_num
  · rw [stageV]
    norm_num

/-- C3 (amended): altitude and velocity are continuous at the phase-1→2
boundary `t_deploy`, and altitude is continuous at the phase-2→3
boundary `t_deploy + t_inflation`, for any inflation acceleration; but
velocity is continuous at the 2→3 boundary exactly when the inflation
acceleration is the uncapped `(-v_t - v0)/t_inflation` used by
`ParachuteFlightSimulation` — for the capped, sign-flipped
`FlightStages` value the velocities generally disagree there (see the
counterexample). -/
theorem C3_continuity_amended (c : Config) (vt aInfl : ℚ) (ht : c.t_infl ≠ 0) :
    freeFallZ c c.t_deploy = inflZ c aInfl c.t_deploy ∧
    freeFallV c c.t_deploy = inflV c aInfl c.t_deploy ∧
    inflZ c aInfl (c.t_deploy + c.t_infl) = termZ c aInfl vt (c.t_deploy + c.t_infl) ∧
    (inflV c aInfl (c.t_deploy + c.t_infl) = -vt ↔ aInfl = aInflPFS c vt) ∧
    inflV c (aInflPFS c vt) (c.t_deploy + c.t_infl) = -vt := by
  refine ⟨?_, ?_, ?_, ?_, ?_⟩
  · unfold freeFallZ inflZ z0Infl v0; ring
  · unfold freeFallV inflV v0; ring
  · unfold inflZ termZ z0Term z0Infl v0; ring
  · unfold inflV aInflPFS v0
    rw [eq_div_iff ht]
    constructor <;> intro h <;> linear_combination h
  · unfold inflV aInflPFS v0
    field_simp

/-- Witness for C3 (amended) on the configuration of the counterexample. -/
theorem C3_continuity_amended_witness :
    ((⟨1, 8, 1, 1, 1000, 60, 2, 2, 1⟩ : Config).t_infl ≠ 0) ∧
    (freeFallZ ⟨1, 8, 1, 1, 1000, 60, 2, 2, 1⟩ 2 = inflZ ⟨1, 8, 1, 1, 1000, 60, 2, 2, 1⟩ (-6) 2 ∧
    freeFallV ⟨1, 8, 1, 1, 1000, 60, 2, 2, 1⟩ 2 = inflV ⟨1, 8, 1, 1, 1000, 60, 2, 2, 1⟩ (-6) 2 ∧
    inflZ ⟨1, 8, 1, 1, 1000, 60, 2, 2, 1⟩ (-6) (2 + 2) =
      termZ ⟨1, 8, 1, 1, 1000, 60, 2, 2, 1⟩ (-6) 4 (2 + 2) ∧
    (inflV ⟨1, 8, 1, 1, 1000, 60, 2, 2, 1⟩ (-6) (2 + 2) = -4 ↔
      (-6 : ℚ) = aInflPFS ⟨1, 8, 1, 1, 1000, 60, 2, 2, 1⟩ 4) ∧
    inflV ⟨1, 8, 1, 1, 1000, 60, 2, 2, 1⟩ (aInflPFS ⟨1, 8, 1, 1, 1000, 60, 2, 2, 1⟩ 4) (2 + 2) = -4) :=
  ⟨by norm_num, C3_continuity_amended ⟨1, 8, 1, 1, 1000, 60, 2, 2, 1⟩ 4 (-6) (by norm_num)⟩

/-- C4 counterexample: for the valid configuration `m=4, g=8, rho=1,
drag_area=1, z0=1000, t_max=3, t_deploy=1/4, t_infl=1` (terminal
velocity exactly `8`) with `dt = 1/4`, the generated altitude samples
are not non-increasing: the positive capped inflation acceleration
drives the velocity positive and the altitude rises during inflation. -/
theorem C4_monotonicity_counterexample :
    isTerminalVelocityQ ⟨4, 8, 1, 1, 1000, 3, 1/4, 1, 0⟩ 8 ∧
    ∃ s1 ∈ generate_trajectory ⟨4, 8, 1, 1, 1000, 3, 1/4, 1, 0⟩ 8
        (aInflFS ⟨4, 8, 1, 1, 1000, 3, 1/4, 1, 0⟩ 8) (1/4),
      ∃ s2 ∈ generate_trajectory ⟨4, 8, 1, 1, 1000, 3, 1/4, 1, 0⟩ 8
          (aInflFS ⟨4, 8, 1, 1, 1000, 3, 1/4, 1, 0⟩ 8) (1/4),
        s1.t < s2.t ∧ s1.z < s2.z := by
  have hA : aInflFS ⟨4, 8, 1, 1, 1000, 3, 1/4, 1, 0⟩ 8 = 6 := by
    rw [aInflFS, v0]
    norm_num [min_def]
  refine ⟨by norm_num [isTerminalVelocityQ], ?_⟩
  rw [hA, generate_trajectory]
  have hguard : ∀ j : Nat, j ≤ 3 → (0:ℚ) + (j:ℚ) * (1/4) ≤
      (⟨4, 8, 1, 1, 1000, 3, 1/4, 1, 0⟩ : Config).t_max := by
    intro j hj
    have hj' : (j : ℚ) ≤ 3 := by exact_mod_cast hj
    show (0:ℚ) + (j:ℚ) * (1/4) ≤ 3
    linarith
  have hpos : ∀ j : Nat, j < 3 →
      0 < stageZ ⟨4, 8, 1, 1, 1000, 3, 1/4, 1, 0⟩ 8 6 ((0:ℚ) + (j:ℚ) * (1/4)) := by
    intro j hj
    interval_cases j <;>
      norm_num [stageZ, freeFallZ, inflZ, z0Infl, v0, termZ, z0Term]
  obtain ⟨s1, hs1, hst1, hsz1, _⟩ :=
    exists_mem_genAux ⟨4, 8, 1, 1, 1000, 3, 1/4, 1, 0⟩ 8 6 (1/4) 2
      (stepFuel ⟨4, 8, 1, 1, 1000, 3, 1/4, 1, 0⟩ (1/4)) 0 1000 0
      (by
        show 2 < (⌊(3:ℚ)/(1/4)⌋ + 2).toNat
        norm_num)
      (by norm_num)
      (fun j hj => hguard j (by omega))
      (fun j hj => hpos j (by omega))
  obtain ⟨s2, hs2, hst2, hsz2, _⟩ :=
    exists_mem_genAux ⟨4, 8, 1, 1, 1000, 3, 1/4, 1, 0⟩ 8 6 (1/4) 3
      (stepFuel ⟨4, 8, 1, 1, 1000, 3, 1/4, 1, 0⟩ (1/4)) 0 1000 0
      (by
        show 3 < (⌊(3:ℚ)/(1/4)⌋ + 2).toNat
        norm_num)
      (by norm_num)
      (fun j hj => hguard j (by omega))
      (fun j hj => hpos j (by omega))
  have hz1 : stageZ ⟨4, 8, 1, 1, 1000, 3, 1/4, 1, 0⟩ 8 6 ((0:ℚ) + (2:ℕ) * (1/4)) =
      15991/16 := by
    norm_num [stageZ, freeFallZ, inflZ, z0Infl, v0, termZ, z0Term]
  have hz2 : stageZ ⟨4, 8, 1, 1, 1000, 3, 1/4, 1, 0⟩ 8 6 ((0:ℚ) + (3:ℕ) * (1/4)) =
      1999/2 := by
    norm_num [stageZ, freeFallZ, inflZ, z0Infl, v0, termZ, z0Term]
  refine ⟨s1, hs1, s2, hs2, ?_, ?_⟩
  · rw [hst1, hst2]
    norm_num
  · rw [hsz1, hz1, hsz2, hz2]
    norm_num

/-- C4 (amended): for every configuration, terminal velocity, inflation
acceleration and step size `dt > 0`, every stored altitude sample is
nonnegative (the `max(z, 0)` floor clamp) and the stored times are
strictly increasing; altitude is however not non-increasing in general
(see the counterexample). -/
theorem C4_altitude_clamp_time_amended (c : Config) (vt aInfl dt : ℚ) (hdt : 0 < dt) :
    (∀ s ∈ generate_trajectory c vt aInfl dt, 0 ≤ s.z) ∧
    ((generate_trajectory c vt aInfl dt).map Sample.t).Chain' (fun a b => a < b) := by
  constructor
  · intro s hs
    rw [(genAux_fields c vt aInfl dt _ _ _ _ s hs).1]
    exact le_max_right _ _
  · exact genAux_times_chain c vt aInfl dt hdt _ _ _ _

/-- Witness for C4 (amended) at a concrete configuration and `dt = 1/4`. -/
theorem C4_altitude_clamp_time_amended_witness :
    (0 : ℚ) < 1/4 ∧
    ((∀ s ∈ generate_trajectory ⟨4, 8, 1, 1, 1000, 3, 1/4, 1, 0⟩ 8 6 (1/4), 0 ≤ s.z) ∧
    ((generate_trajectory ⟨4, 8, 1, 1, 1000, 3, 1/4, 1, 0⟩ 8 6 (1/4)).map Sample.t).Chain'
      (fun a b => a < b)) :=
  ⟨by norm_num, C4_altitude_clamp_time_amended ⟨4, 8, 1, 1, 1000, 3, 1/4, 1, 0⟩ 8 6 (1/4) (by norm_num)⟩

/-- C5: for every configuration with `t_max > 0` and step size `dt > 0`
(and any terminal velocity and inflation acceleration), the sampling
loop terminates on its own — any fuel of at least `stepFuel` yields the
same finite list — and returns at most `t_max/dt + 1` samples; every
sample satisfies the loop guard `t ≤ t_max`, and every sample other than
the final one is strictly above ground, so the terminal sample is the
first one at or below ground. -/
theorem C5_termination_bounds (c : Config) (vt aInfl dt : ℚ)
    (hdt : 0 < dt) (htm : 0 < c.t_max) :
    (∀ F, stepFuel c dt ≤ F →
      genAux c vt aInfl dt F 0 c.z0 0 = generate_trajectory c vt aInfl dt) ∧
    ((generate_trajectory c vt aInfl dt).length : ℚ) ≤ c.t_max / dt + 1 ∧
    (∀ s ∈ generate_trajectory c vt aInfl dt, s.t ≤ c.t_max) ∧
    (∀ s ∈ (generate_trajectory c vt aInfl dt).dropLast, 0 < s.z) := by
  have hstep : stepFuel c dt = (⌊(c.t_max - 0) / dt⌋ + 2).toNat := by
    rw [stepFuel, sub_zero]
  refine ⟨?_, ?_, ?_, ?_⟩
  · intro F hF
    obtain ⟨k, rfl⟩ : ∃ k, F = stepFuel c dt + k := ⟨F - stepFuel c dt, by omega⟩
    rw [generate_trajectory]
    exact genAux_fuel_add c vt aInfl dt hdt k (stepFuel c dt) 0 c.z0 0 (le_of_eq hstep.symm)
  · have hlen := genAux_length_le c vt aInfl dt hdt (stepFuel c dt) 0 c.z0 0
    rw [sub_zero] at hlen
    have hfl : 0 ≤ ⌊c.t_max / dt⌋ := Int.floor_nonneg.2 (by positivity)
    have hcast : ((⌊c.t_max / dt⌋ + 1).toNat : ℚ) = (⌊c.t_max / dt⌋ : ℚ) + 1 := by
      have h1 : ((⌊c.t_max / dt⌋ + 1).toNat : ℤ) = ⌊c.t_max / dt⌋ + 1 :=
        Int.toNat_of_nonneg (by omega)
      exact_mod_cast congrArg (fun z : ℤ => (z : ℚ)) h1
    calc ((generate_trajectory c vt aInfl dt).length : ℚ)
        ≤ ((⌊c.t_max / dt⌋ + 1).toNat : ℚ) := by exact_mod_cast hlen
      _ = (⌊c.t_max / dt⌋ : ℚ) + 1 := hcast
      _ ≤ c.t_max / dt + 1 := by linarith [Int.floor_le (c.t_max / dt)]
  · exact fun s hs => genAux_t_le_tmax c vt aInfl dt _ _ _ _ s hs
  · exact fun s hs => genAux_dropLast_pos c vt aInfl dt _ _ _ _ s hs

/-- Witness for C5 at a concrete configuration and `dt = 1`. -/
theorem C5_termination_bounds_witness :
    (0:ℚ) < 1 ∧ (0:ℚ) < 2 ∧
    ((∀ F, stepFuel ⟨1, 10, 1, 1, 100, 2, 0, 1, 0⟩ 1 ≤ F →
      genAux ⟨1, 10, 1, 1, 100, 2, 0, 1, 0⟩ 10 0 1 F 0
        (⟨1, 10, 1, 1, 100, 2, 0, 1, 0⟩ : Config).z0 0 =
        generate_trajectory ⟨1, 10, 1, 1, 100, 2, 0, 1, 0⟩ 10 0 1) ∧
    ((generate_trajectory ⟨1, 10, 1, 1, 100, 2, 0, 1, 0⟩ 10 0 1).length : ℚ) ≤
      (⟨1, 10, 1, 1, 100, 2, 0, 1, 0⟩ : Config).t_max / 1 + 1 ∧
    (∀ s ∈ generate_trajectory ⟨1, 10, 1, 1, 100, 2, 0, 1, 0⟩ 10 0 1,
      s.t ≤ (⟨1, 10, 1, 1, 100, 2, 0, 1, 0⟩ : Config).t_max) ∧
    (∀ s ∈ (generate_trajectory ⟨1, 10, 1, 1, 100, 2, 0, 1, 0⟩ 10 0 1).dropLast,
      0 < s.z)) :=
  ⟨by norm_num, by norm_num,
    C5_termination_bounds ⟨1, 10, 1, 1, 100, 2, 0, 1, 0⟩ 10 0 1 (by norm_num) (by norm_num)⟩

/-- C6 counterexample: `FlightStages` construction succeeds on a payload
of mass `-6` with a parachute of mass `5` — total descending mass `-1`,
which violates the claimed positive-mass constraint — because its
`__init__` checks only altitude, `t_max`, inflation time and deployment
time; non-positive total mass (and likewise drag area) is never
rejected. -/
theorem C6_missing_mass_check_counterexample :
    flightStagesInit (-6) 5 2 (981/100) (49/40) 1000 60 2 2 1 =
      .ok ⟨-1, 981/100, 49/40, 2, 1000, 60, 2, 2, 1⟩ ∧
    ((-6 : ℚ) + 5 ≤ 0) := by
  constructor
  · rw [flightStagesInit]
    norm_num
  · norm_num

/-- C6 (amended): the `ParachuteFlightSimulation` constructor accepts a
configuration exactly when mass, drag coefficient, area, initial height,
`t_max` and inflation time are positive and the deployment time is
nonnegative — and rejects it with a configuration error (producing no
trajectory object) otherwise; the `FlightStages` constructor however
checks only the initial altitude, `t_max`, the inflation time and the
deployment time, accepting non-positive total mass or drag area. -/
theorem C6_validation_amended (mass Cd A z0q tmq tdq tiq hq rhoq gq pm cm dA alt : ℚ) :
    ((∃ cfg, pfsInit mass Cd A z0q tmq tdq tiq hq rhoq gq = .ok cfg) ↔
      (0 < mass ∧ 0 < Cd ∧ 0 < A ∧ 0 < z0q ∧ 0 < tmq ∧ 0 < tiq ∧ 0 ≤ tdq)) ∧
    ((∃ cfg, flightStagesInit pm cm dA gq rhoq alt tmq tdq tiq hq = .ok cfg) ↔
      (0 < alt ∧ 0 < tmq ∧ 0 < tiq ∧ 0 ≤ tdq)) := by
  constructor
  · rw [pfsInit]
    split_ifs with h1 h2 h3 h4 h5 h6
    · exact iff_of_false (by simp) (fun hc => absurd hc.1 (not_lt.2 h1))
    · rcases h2 with h2 | h2
      · exact iff_of_false (by simp) (fun hc => absurd hc.2.1 (not_lt.2 h2))
      · exact iff_of_false (by simp) (fun hc => absurd hc.2.2.1 (not_lt.2 h2))
    · exact iff_of_false (by simp) (fun hc => absurd hc.2.2.2.1 (not_lt.2 h3))
    · exact iff_of_false (by simp) (fun hc => absurd hc.2.2.2.2.1 (not_lt.2 h4))
    · exact iff_of_false (by simp) (fun hc => absurd hc.2.2.2.2.2.1 (not_lt.2 h5))
    · exact iff_of_false (by simp) (fun hc => absurd hc.2.2.2.2.2.2 (not_le.2 h6))
    · push_neg at h1 h2 h3 h4 h5 h6
      exact iff_of_true ⟨_, rfl⟩ ⟨h1, h2.1, h2.2, h3, h4, h5, h6⟩
  · rw [flightStagesInit]
    split_ifs with h1 h2 h3 h4
    · exact iff_of_false (by simp) (fun hc => absurd hc.1 (not_lt.2 h1))
    · exact iff_of_false (by simp) (fun hc => absurd hc.2.1 (not_lt.2 h2))
    · exact iff_of_false (by simp) (fun hc => absurd hc.2.2.1 (not_lt.2 h3))
    · exact iff_of_false (by simp) (fun hc => absurd hc.2.2.2 (not_le.2 h4))
    · push_neg at h1 h2 h3 h4
      exact iff_of_true ⟨_, rfl⟩ ⟨h1, h2, h3, h4⟩

/-- C7: for every generated trajectory (any valid configuration:
`z0 > 0`, `t_max ≥ 0`, `dt > 0`) and every query time, the state query
returns a sample of the trajectory minimising the distance `|t - query|`
to the query time, flagged out-of-range exactly when the query exceeds
the last generated time — in particular it always returns a sample and
never fails. -/
theorem C7_state_query_nearest (c : Config) (vt aInfl dt tq : ℚ)
    (hz : 0 < c.z0) (htm : 0 ≤ c.t_max) (hdt : 0 < dt) :
    ∃ s flag last,
      get_state_at_time c vt aInfl dt tq = some (s, flag) ∧
      (generate_trajectory c vt aInfl dt).getLast? = some last ∧
      s ∈ generate_trajectory c vt aInfl dt ∧
      (∀ s2 ∈ generate_trajectory c vt aInfl dt, |s.t - tq| ≤ |s2.t - tq|) ∧
      (flag = true ↔ last.t < tq) := by
  have hne : generate_trajectory c vt aInfl dt ≠ [] := by
    rw [generate_trajectory]
    have h1 : 1 ≤ stepFuel c dt := by
      rw [stepFuel]
      have : 0 ≤ ⌊c.t_max / dt⌋ := Int.floor_nonneg.2 (by positivity)
      omega
    obtain ⟨n, hn⟩ : ∃ n, stepFuel c dt = n + 1 := ⟨stepFuel c dt - 1, by omega⟩
    rw [hn]
    exact genAux_ne_nil c vt aInfl dt n c.z0 0 hz htm
  obtain ⟨last, hlast⟩ : ∃ last, (generate_trajectory c vt aInfl dt).getLast? = some last :=
    ⟨_, List.getLast?_eq_getLast _ hne⟩
  have hlastmem : last ∈ generate_trajectory c vt aInfl dt :=
    List.mem_of_getLast?_eq_some hlast
  have hchain := genAux_times_chain c vt aInfl dt hdt (stepFuel c dt) 0 c.z0 0
  have hpair : ((generate_trajectory c vt aInfl dt).map Sample.t).Pairwise
      (fun a u => a < u) := by
    rw [generate_trajectory]
    exact List.chain'_iff_pairwise.1 hchain
  have hmax : ∀ s2 ∈ generate_trajectory c vt aInfl dt, s2.t ≤ last.t :=
    mem_le_getLast Sample.t _ last hlast hpair
  rw [get_state_at_time, hlast]
  dsimp only
  by_cases hq : last.t < tq
  · rw [if_pos hq]
    refine ⟨last, true, last, rfl, rfl, hlastmem, ?_, by simp [hq]⟩
    intro s2 hs2
    have h1 : s2.t ≤ last.t := hmax s2 hs2
    rw [abs_of_nonpos (by linarith), abs_of_nonpos (by linarith)]
    linarith
  · rw [if_neg hq]
    obtain ⟨m, hm⟩ : ∃ m, (generate_trajectory c vt aInfl dt).argmin
        (fun s => |s.t - tq|) = some m := by
      rcases ho : (generate_trajectory c vt aInfl dt).argmin (fun s => |s.t - tq|) with _ | m
      · exact absurd (List.argmin_eq_none.1 ho) hne
      · exact ⟨m, ho⟩
    have hmm : m ∈ (generate_trajectory c vt aInfl dt).argmin (fun s => |s.t - tq|) :=
      Option.mem_def.2 hm
    have hmem : m ∈ generate_trajectory c vt aInfl dt := List.argmin_mem hmm
    have hmin : ∀ s2 ∈ generate_trajectory c vt aInfl dt, |m.t - tq| ≤ |s2.t - tq| := by
      intro s2 hs2
      have h3 := List.le_of_mem_argmin hs2 hmm
      exact h3
    rw [hm]
    exact ⟨m, false, last, rfl, rfl, hmem, hmin, by simp [hq]⟩

/-- Witness for C7 at a concrete configuration, `dt = 1`, query `5`. -/
theorem C7_state_query_nearest_witness :
    (0:ℚ) < (⟨1, 10, 1, 1, 100, 2, 0, 1, 0⟩ : Config).z0 ∧
    (0:ℚ) ≤ (⟨1, 10, 1, 1, 100, 2, 0, 1, 0⟩ : Config).t_max ∧ (0:ℚ) < 1 ∧
    (∃ s flag last,
      get_state_at_time ⟨1, 10, 1, 1, 100, 2, 0, 1, 0⟩ 10 0 1 5 = some (s, flag) ∧
      (generate_trajectory ⟨1, 10, 1, 1, 100, 2, 0, 1, 0⟩ 10 0 1).getLast? = some last ∧
      s ∈ generate_trajectory ⟨1, 10, 1, 1, 100, 2, 0, 1, 0⟩ 10 0 1 ∧
      (∀ s2 ∈ generate_trajectory ⟨1, 10, 1, 1, 100, 2, 0, 1, 0⟩ 10 0 1,
        |s.t - 5| ≤ |s2.t - 5|) ∧
      (flag = true ↔ last.t < 5)) :=
  ⟨by norm_num, by norm_num, by norm_num,
    C7_state_query_nearest ⟨1, 10, 1, 1, 100, 2, 0, 1, 0⟩ 10 0 1 5
      (by norm_num) (by norm_num) (by norm_num)⟩

/-- C8: for every parachute with positive diameter and drag coefficient,
the drag area computed at construction is `Cd * d^2` for the square
shape and `Cd * (pi * d^2 / 4)` for every other shape; with diameter 10
the square reference area is exactly `100 m²` and the circular one is
approximately `78.54 m²` (within `0.01`). -/
theorem C8_drag_area_formula (shape : String) (d Cd : ℝ) (_hd : 0 < d) (_hCd : 0 < Cd) :
    calculate_drag_area "square" Cd d = Cd * d ^ 2 ∧
    (shape ≠ "square" → calculate_drag_area shape Cd d = Cd * (Real.pi * d ^ 2 / 4)) ∧
    referenceArea "square" 10 = 100 ∧
    |referenceArea "hemispherical" 10 - 78.54| < 0.01 := by
  refine ⟨?_, ?_, ?_, ?_⟩
  · rw [calculate_drag_area, referenceArea, if_pos rfl]
  · intro hs
    rw [calculate_drag_area, referenceArea, if_neg hs]
    ring
  · rw [referenceArea, if_pos rfl]
    norm_num
  · rw [referenceArea, if_neg (by simp)]
    have h1 := Real.pi_gt_d6
    have h2 := Real.pi_lt_d6
    rw [abs_lt]
    constructor <;> nlinarith

/-- Witness for C8 at shape `"flat"`, diameter `10`, drag coefficient `2`. -/
theorem C8_drag_area_formula_witness :
    (0:ℝ) < 10 ∧ (0:ℝ) < 2 ∧
    (calculate_drag_area "square" 2 10 = 2 * 10 ^ 2 ∧
    ("flat" ≠ "square" → calculate_drag_area "flat" 2 10 = 2 * (Real.pi * 10 ^ 2 / 4)) ∧
    referenceArea "square" 10 = 100 ∧
    |referenceArea "hemispherical" 10 - 78.54| < 0.01) :=
  ⟨by norm_num, by norm_num,
    C8_drag_area_formula "flat" 10 2 (by norm_num) (by norm_num)⟩

/-- C9 counterexample: constructing the oscillation estimator with the
overdamped damping ratio `zeta = 3/2 ≥ 1` succeeds — `__init__` stores
the value without any validation, so the claimed fail-fast rejection
does not happen — and the resulting `simulate` would then take the
square root of the negative number `1 - zeta^2 = -5/4`. -/
theorem C9_overdamped_not_rejected_counterexample :
    (oscInit (3/2) (4/5) 5).zeta = 3/2 ∧
    1 - (oscInit (3/2) (4/5) 5).zeta ^ 2 < 0 := by
  constructor
  · rfl
  · rw [show (oscInit (3/2) (4/5) 5).zeta = 3/2 from rfl]
    norm_num

/-- C9 (amended): the oscillation estimator performs no damping-ratio
validation — construction stores any `zeta`, including `zeta ≥ 1` — and
for `zeta < 1` it produces exactly the damped-oscillator closed form
`theta(t) = theta0 * exp(-zeta*omega_n*t) * cos(omega_d*t)` with
`omega_d = omega_n * sqrt(1 - zeta^2)` and `theta0` converted from
degrees to radians. -/
theorem C9_osc_model_amended (damping_ratio natural_freq initial_angle t : ℝ)
    (_hz : damping_ratio < 1) :
    (oscInit damping_ratio natural_freq initial_angle).zeta = damping_ratio ∧
    (oscInit damping_ratio natural_freq initial_angle).theta0 =
      initial_angle * Real.pi / 180 ∧
    omega_d (oscInit damping_ratio natural_freq initial_angle) =
      natural_freq * Real.sqrt (1 - damping_ratio ^ 2) ∧
    oscTheta (oscInit damping_ratio natural_freq initial_angle) t =
      initial_angle * Real.pi / 180 * Real.exp (-damping_ratio * natural_freq * t) *
        Real.cos (natural_freq * Real.sqrt (1 - damping_ratio ^ 2) * t) :=
  ⟨rfl, rfl, rfl, rfl⟩

/-- Witness for C9 (amended) at `zeta = 1/2`, `omega_n = 2`,
`theta0 = 90` degrees, `t = 3`. -/
theorem C9_osc_model_amended_witness :
    (1/2 : ℝ) < 1 ∧
    ((oscInit (1/2) 2 90).zeta = 1/2 ∧
    (oscInit (1/2) 2 90).theta0 = 90 * Real.pi / 180 ∧
    omega_d (oscInit (1/2) 2 90) = 2 * Real.sqrt (1 - (1/2) ^ 2) ∧
    oscTheta (oscInit (1/2) 2 90) 3 =
      90 * Real.pi / 180 * Real.exp (-(1/2) * 2 * 3) *
        Real.cos (2 * Real.sqrt (1 - (1/2) ^ 2) * 3)) :=
  ⟨by norm_num, C9_osc_model_amended (1/2) 2 90 3 (by norm_num)⟩

/-- C10: for every shape string whose lowercase form is not one of the
seven preset keys, parachute construction succeeds (the constructor is a
total function — `__init__` contains no validation and never raises) and
fills the defaults: opening-force coefficient `1.5`, inflation time
`1.0`, suspension-line factor `1.2` (line length `1.2 * diameter`), and
the circular drag-area formula `Cd * (pi/4) * d^2`. -/
theorem C10_unknown_shape_defaults (shape : String) (d Cd : ℚ)
    (hs : shape ∉ knownShapes) :
    (mkParachute d Cd none shape none none none).opening_force_coefficient = 3/2 ∧
    (mkParachute d Cd none shape none none none).inflation_time = 1 ∧
    (mkParachute d Cd none shape none none none).suspension_line_length = 6/5 * d ∧
    (mkParachute d Cd none shape none none none).area =
      (Cd : ℝ) * (Real.pi / 4 * (d : ℝ) ^ 2) := by
  simp only [knownShapes, List.mem_cons, List.mem_singleton, not_or] at hs
  obtain ⟨h1, h2, h3, h4, h5, h6, h7, -⟩ := hs
  refine ⟨?_, ?_, ?_, ?_⟩
  · show (estimate_opening_parameters shape).1 = 3/2
    rw [estimate_opening_parameters, if_neg h1, if_neg h2, if_neg h3, if_neg h4,
      if_neg h5, if_neg h6, if_neg h7]
  · show (estimate_opening_parameters shape).2 = 1
    rw [estimate_opening_parameters, if_neg h1, if_neg h2, if_neg h3, if_neg h4,
      if_neg h5, if_neg h6, if_neg h7]
  · show estimate_suspension_line_length d shape = 6/5 * d
    rw [estimate_suspension_line_length, lineRatio, if_neg h1, if_neg h2, if_neg h3,
      if_neg h7, if_neg h6, if_neg h4, if_neg h5]
  · show calculate_drag_area shape (Cd : ℝ) (d : ℝ) =
      (Cd : ℝ) * (Real.pi / 4 * (d : ℝ) ^ 2)
    rw [calculate_drag_area, referenceArea, if_neg h7]

/-- Witness for C10 at the unknown shape `"pentagon"`, diameter `2`,
drag coefficient `3`. -/
theorem C10_unknown_shape_defaults_witness :
    ("pentagon" ∉ knownShapes) ∧
    ((mkParachute 2 3 none "pentagon" none none none).opening_force_coefficient = 3/2 ∧
    (mkParachute 2 3 none "pentagon" none none none).inflation_time = 1 ∧
    (mkParachute 2 3 none "pentagon" none none none).suspension_line_length = 6/5 * 2 ∧
    (mkParachute 2 3 none "pentagon" none none none).area =
      ((3:ℚ) : ℝ) * (Real.pi / 4 * ((2:ℚ) : ℝ) ^ 2)) :=
  ⟨by decide, C10_unknown_shape_defaults "pentagon" 2 3 (by decide)⟩

end ParachuteSim
